import Mathlib

/-!
Shallow embedding of the filtering-and-aggregation engine of `src/App.py`
(an NHS dental-contract dashboard built on pandas).

Modelling conventions, written against the pandas semantics the script uses:

* A cell is `Option Value` (`none` models pandas `NaN`/`NaT`); a row is an
  association list from column name to cell; a dataset carries the list of
  column names (for the `"X" in df.columns` guards) and the ordered rows.
* Numbers are `ℚ` (the script only sums, compares and rounds; no float
  rounding effect is relevant at the small magnitudes examined here).
* `Series.isin(values)` is false on a `NaN` cell, so a `none` cell never
  passes a membership filter; comparisons `>= / <=` are false on `NaN`, so a
  `none` cell never passes the range filter.
* `groupby(col)` uses the pandas defaults `sort=True, dropna=True`: group
  keys are the distinct non-null values of the column, emitted in ascending
  key order, and rows with a null key belong to no group.
* `sort_values(col, ascending=False)` is pandas `nargsort`: an ascending
  argsort of the column followed by a reversal of the permutation.  On the
  inputs considered here the ascending argsort is stable, and since each
  group key occurs exactly once in the aggregated frame, the resulting list
  is the unique one ordered by (summed value descending, then group key
  descending).  We model it as an insertion sort by that lexicographic
  relation.
-/

attribute [local semireducible] Rat.add Rat.sub Rat.mul Rat.inv Rat.ofScientific

namespace NHSDental

/-- A scalar cell payload: the object (string) and numeric dtypes used by the script. -/
inductive Value where
  | str : String → Value
  | num : ℚ → Value
deriving DecidableEq, Repr

/-- A cell; `none` models pandas `NaN`/`NaT`. -/
abbrev Cell := Option Value

/-- A row: association list from column name to cell. -/
abbrev Row := List (String × Cell)

/-- Reading one cell of a row; an absent column reads as a missing value. -/
def Row.get (r : Row) (c : String) : Cell :=
  match r.lookup c with
  | some v => v
  | none => none

/-- A dataset: the column list (for the `in df.columns` guards) and rows. -/
structure Dataset where
  cols : List String
  rows : List Row
deriving DecidableEq, Repr

/-- Series.isin on one cell: false on a missing value, membership otherwise. -/
def isinCell (allowed : List Value) (c : Cell) : Bool :=
  match c with
  | some v => allowed.contains v
  | none => false

/-- The range test of lines 115-118: `low <= value <= high`, false on NaN
and on a non-numeric cell. -/
def rangePred (lo hi : ℚ) (c : Cell) : Bool :=
  match c with
  | some (Value.num v) => decide (lo ≤ v) && decide (v ≤ hi)
  | _ => false

/-- The three sidebar selections feeding the filter block of lines 105-118.
`selected_comm` is always a list (the script sets it to `[]` when the
commissioner column is missing); `selected_prison` is `None` exactly when
the prison column is missing; `value_range` is `None` exactly when the
total-value column is missing. -/
structure Selections where
  selected_comm : List Value
  selected_prison : Option (List Value)
  value_range : Option (ℚ × ℚ)
deriving Repr

/-- Lines 107-108 of App.py: the commissioner membership filter runs only on
a non-empty (truthy) selection list. -/
def filterComm (sel : List Value) (d : Dataset) : Dataset :=
  if sel.isEmpty then d
  else ⟨d.cols, d.rows.filter fun r =>
    isinCell sel (Row.get r "COMMISSIONERNAME")⟩

/-- Lines 110-111 of App.py: the prison membership filter runs whenever the
selection is not `None` and the column exists — also when the selection is
the empty list. -/
def filterPrison (sel : Option (List Value)) (d : Dataset) : Dataset :=
  match sel with
  | none => d
  | some ps =>
    if d.cols.contains "PRISONIND" then
      ⟨d.cols, d.rows.filter fun r => isinCell ps (Row.get r "PRISONIND")⟩
    else d

/-- Lines 113-118 of App.py: the total-value range filter runs whenever the
slider exists and the column exists. -/
def filterRange (vr : Option (ℚ × ℚ)) (d : Dataset) : Dataset :=
  match vr with
  | none => d
  | some (lo, hi) =>
    if d.cols.contains "TOTALFINVALUE" then
      ⟨d.cols, d.rows.filter fun r => rangePred lo hi (Row.get r "TOTALFINVALUE")⟩
    else d

/-- Lines 105-118 of App.py: the three sequential filter stages. -/
def applyFilters (d : Dataset) (s : Selections) : Dataset :=
  filterRange s.value_range (filterPrison s.selected_prison (filterComm s.selected_comm d))

/-- Numeric reading of a cell (what `.sum()` and `.min()` consume). -/
def numCell (c : Cell) : Option ℚ :=
  match c with
  | some (Value.num v) => some v
  | _ => none

/-- Series.sum() with the default `skipna=True`: the sum of the non-null
numeric cells of a column, `0` when none remain. -/
def sumCol (d : Dataset) (c : String) : ℚ :=
  (d.rows.filterMap fun r => numCell (Row.get r c)).sum

/-- The metric row of lines 127-151: the contract count, and for a tracked
numeric column the `.sum()` when the column exists, `none` (displayed as
"N/A") when it does not. -/
def summarizeSum (d : Dataset) (c : String) : Option ℚ :=
  if d.cols.contains c then some (sumCol d c) else none

/-- Lexicographic comparison of character lists by code point — the order
Python string comparison (and hence pandas object-key sorting) uses. -/
def lexLe : List Char → List Char → Bool
  | [], _ => true
  | _ :: _, [] => false
  | c :: cs, d :: ds =>
    if c.toNat < d.toNat then true
    else if d.toNat < c.toNat then false
    else lexLe cs ds

/-- Lexicographic comparison of strings by code point. -/
def strLe (a b : String) : Bool := lexLe a.toList b.toList

/-- Ascending comparison used for group keys; on the string keys the script
groups by it is the lexicographic string order (pandas sorts object keys the
same way), and a numeric key sorts by the numeric order. A mixed-type key
column would make pandas raise on sorting; the order chosen for that unused
case is arbitrary. -/
def Value.leB : Value → Value → Bool
  | .num a, .num b => decide (a ≤ b)
  | .str a, .str b => strLe a b
  | .num _, .str _ => true
  | .str _, .num _ => false

/-- Ascending key relation (propositional form of `Value.leB`). -/
def keyAsc (a b : Value) : Prop := Value.leB a b = true

instance : DecidableRel keyAsc := fun a b =>
  inferInstanceAs (Decidable (Value.leB a b = true))

/-- Distinct non-null values of the grouping column, first occurrence first
(pandas `dropna=True`: rows with a null key join no group). -/
def keysOf (d : Dataset) (g : String) : List Value :=
  (d.rows.filterMap fun r => Row.get r g).dedup

/-- Group keys in the order `groupby(sort=True)` emits them: ascending. -/
def sortedKeys (d : Dataset) (g : String) : List Value :=
  List.insertionSort keyAsc (keysOf d g)

/-- Sum of one value column over the rows of one group. -/
def groupSum (d : Dataset) (g : String) (k : Value) (v : String) : ℚ :=
  ((d.rows.filter fun r => Row.get r g == some k).filterMap
    fun r => numCell (Row.get r v)).sum

/-- The aggregated frame as `groupby(g)[vs].sum()` leaves it: one row per
distinct non-null key, keys ascending, one sum per value column. -/
def aggList (d : Dataset) (g : String) (vs : List String) :
    List (Value × List ℚ) :=
  (sortedKeys d g).map fun k => (k, vs.map fun v => groupSum d g k v)

/-- The sort key of `sort_values(first value column, ascending=False)`. -/
def primarySum (p : Value × List ℚ) : ℚ := p.2.headD 0

/-- Row order after the descending `sort_values`: by primary sum descending,
ties by group key descending (see the header comment on `nargsort`). -/
def sortRel (a b : Value × List ℚ) : Prop :=
  primarySum b < primarySum a ∨
    (primarySum a = primarySum b ∧ Value.leB b.1 a.1 = true)

instance : DecidableRel sortRel := fun a b =>
  inferInstanceAs (Decidable (primarySum b < primarySum a ∨
    (primarySum a = primarySum b ∧ Value.leB b.1 a.1 = true)))

/-- Lines 172-176 (and 197-201, 255-259): group, sum, sort descending. -/
def groupAggregate (d : Dataset) (g : String) (vs : List String) :
    List (Value × List ℚ) :=
  List.insertionSort sortRel (aggList d g vs)

/-- Lines 223-228 with the fixed count 20 generalised: group, sum,
sort descending, `.head(n)`. -/
def topN (d : Dataset) (g v : String) (n : ℕ) : List (Value × List ℚ) :=
  (List.insertionSort sortRel (aggList d g [v])).take n

/-- The Top-20-providers frame `df_prov` of lines 223-228. -/
def df_prov (d : Dataset) : List (Value × List ℚ) :=
  topN d "PROVIDERNAME" "TOTALFINVALUE" 20

/-! Year-month normalization, lines 26-30 of App.py:
`astype(str).str.zfill(6)`, append `"01"`, `pd.to_datetime(format="%Y%m%d",
errors="coerce")` (failures become `NaT`, rows are kept). -/

/-- str.zfill(6): left-pad with zeros to at least six characters. -/
def zfill6 (s : String) : String :=
  String.mk (List.replicate (6 - s.length) '0') ++ s

/-- Numeric value of a digit list (most significant digit first). -/
def digitsVal (l : List Char) : ℕ :=
  l.foldl (fun a c => 10 * a + (c.toNat - 48)) 0

/-- A calendar date, year/month/day. -/
structure Date where
  year : ℕ
  month : ℕ
  day : ℕ
deriving DecidableEq, Repr

/-- Gregorian leap-year test. -/
def isLeap (y : ℕ) : Bool := (y % 4 == 0 && y % 100 != 0) || y % 400 == 0

/-- Length of a month. -/
def daysInMonth (y m : ℕ) : ℕ :=
  if m = 2 then (if isLeap y then 29 else 28)
  else if m = 4 ∨ m = 6 ∨ m = 9 ∨ m = 11 then 30 else 31

/-- Chronological non-strict comparison of dates. -/
def dateLe (a b : Date) : Bool :=
  a.year < b.year ||
    (a.year == b.year &&
      (a.month < b.month || (a.month == b.month && a.day ≤ b.day)))

/-- First whole calendar day representable by a nanosecond `Timestamp`
(pandas minimum is 1677-09-21T18:12; midnight of that day is out of range,
so 1677-09-22 is the first parseable day). -/
def tsMinDay : Date := ⟨1677, 9, 22⟩

/-- Last whole calendar day representable by a nanosecond `Timestamp`
(pandas maximum is 2262-04-11T23:47). -/
def tsMaxDay : Date := ⟨2262, 4, 11⟩

/-- pd.to_datetime of one string under `format="%Y%m%d"` with
`errors="coerce"`: eight digits forming an in-range calendar date parse to
that date; everything else coerces to `NaT` (`none`). -/
def parseYYYYMMDD (s : String) : Option Date :=
  let cs := s.toList
  if cs.length = 8 ∧ cs.all Char.isDigit then
    let y := digitsVal (cs.take 4)
    let m := digitsVal ((cs.drop 4).take 2)
    let dd := digitsVal (cs.drop 6)
    if 1 ≤ m ∧ m ≤ 12 ∧ 1 ≤ dd ∧ dd ≤ daysInMonth y m
        ∧ dateLe tsMinDay ⟨y, m, dd⟩ ∧ dateLe ⟨y, m, dd⟩ tsMaxDay
    then some ⟨y, m, dd⟩ else none
  else none

/-- Lines 27-30 on one string-form cell: zero-pad to six characters, append
the day "01", parse as YYYYMMDD. -/
def ymToDate (s : String) : Option Date :=
  parseYYYYMMDD (zfill6 s ++ "01")

/-- Lines 27-30 on one integer-typed YEARMONTH cell: `astype(str)` renders
its decimal form, then `ymToDate`. -/
def ymOfNat (n : ℕ) : Option Date :=
  ymToDate (toString n)

/-! Numeric coercion, lines 40-42 of App.py:
`pd.to_numeric(df[col], errors="coerce")` per configured column. -/

/-- Numeric value of a digit list (most significant digit first). -/
def digitsValL (l : List Char) : ℚ :=
  l.foldl (fun a c => 10 * a + ((c.toNat - 48 : ℕ) : ℚ)) 0

/-- Decimal-literal reading of one string: optional sign, digits, optional
single decimal point — the shapes `pd.to_numeric` accepts for the data at
hand; anything else (text such as "N/A", the empty string) is
non-convertible and yields `none`. Exponent and whitespace forms are not
exercised by the spec and are treated as non-convertible. -/
def parseNum (s : String) : Option ℚ :=
  let withSign : ℚ × List Char :=
    match s.toList with
    | '-' :: t => (-1, t)
    | '+' :: t => (1, t)
    | t => (1, t)
  let sign := withSign.1
  let intPart := withSign.2.takeWhile Char.isDigit
  let rest := withSign.2.dropWhile Char.isDigit
  match rest with
  | [] => if intPart.isEmpty then none else some (sign * digitsValL intPart)
  | '.' :: fracPart =>
    if fracPart.all Char.isDigit ∧ (intPart ≠ [] ∨ fracPart ≠ []) then
      some (sign * (digitsValL intPart +
        digitsValL fracPart / ((10 : ℚ) ^ fracPart.length)))
    else none
  | _ => none

/-- pd.to_numeric with `errors="coerce"` on one cell: missing stays missing,
numeric stays numeric, a string parses or coerces to null — never an error. -/
def to_numeric (c : Cell) : Cell :=
  match c with
  | none => none
  | some (Value.num q) => some (Value.num q)
  | some (Value.str s) => (parseNum s).map Value.num

/-- One row after coercing column `c` (other cells untouched). -/
def coerceRow (c : String) (r : Row) : Row :=
  r.map fun p => if p.1 = c then (p.1, to_numeric p.2) else p

/-- Lines 40-42 for one configured column: coerce it cell-by-cell when it is
present, leave the dataset unchanged when it is not. -/
def coerceCol (d : Dataset) (c : String) : Dataset :=
  if d.cols.contains c then ⟨d.cols, d.rows.map (coerceRow c)⟩ else d

/-! The slider defaults, lines 89-98 of App.py. -/

/-- Series.min() (skipna): least non-null numeric value of a column. -/
def colMin (d : Dataset) (c : String) : Option ℚ :=
  match d.rows.filterMap (fun r => numCell (Row.get r c)) with
  | [] => none
  | x :: xs => some (xs.foldl min x)

/-- Series.max() (skipna): greatest non-null numeric value of a column. -/
def colMax (d : Dataset) (c : String) : Option ℚ :=
  match d.rows.filterMap (fun r => numCell (Row.get r c)) with
  | [] => none
  | x :: xs => some (xs.foldl max x)

/-- Python round(x, 0): round to an integer, halves to the even integer. -/
def pyRound (q : ℚ) : ℚ :=
  let f : ℤ := ⌊q⌋
  let frac : ℚ := q - (f : ℚ)
  if frac < 1 / 2 then (f : ℚ)
  else if 1 / 2 < frac then ((f + 1 : ℤ) : ℚ)
  else if f % 2 = 0 then (f : ℚ) else ((f + 1 : ℤ) : ℚ)

/-- Lines 89-98: the untouched slider value — the pair
(round(min, 0), round(max, 0)) of the total-value column — when the column
exists and has a non-null value, `none` otherwise. -/
def defaultRange (d : Dataset) : Option (ℚ × ℚ) :=
  if d.cols.contains "TOTALFINVALUE" then
    match colMin d "TOTALFINVALUE", colMax d "TOTALFINVALUE" with
    | some a, some b => some (pyRound a, pyRound b)
    | _, _ => none
  else none

/-! Order-theoretic facts about the key and row comparisons, needed to apply
the generic sortedness theorem for insertion sort. -/

theorem lexLe_total : ∀ a b : List Char, lexLe a b = true ∨ lexLe b a = true
  | [], _ => Or.inl rfl
  | _ :: _, [] => Or.inr rfl
  | c :: cs, d :: ds => by
    by_cases h1 : c.toNat < d.toNat
    · left; simp [lexLe, h1]
    · by_cases h2 : d.toNat < c.toNat
      · right; simp [lexLe, h1, h2]
      · have ih := lexLe_total cs ds
        simpa [lexLe, h1, h2] using ih

theorem lexLe_trans :
    ∀ {a b c : List Char}, lexLe a b = true → lexLe b c = true →
      lexLe a c = true
  | [], _, _, _, _ => rfl
  | _ :: _, [], _, h1, _ => by simp [lexLe] at h1
  | _ :: _, _ :: _, [], _, h2 => by simp [lexLe] at h2
  | x :: xs, y :: ys, z :: zs, h1, h2 => by
    simp only [lexLe] at h1 h2 ⊢
    rcases Nat.lt_trichotomy x.toNat y.toNat with hxy | hxy | hxy
    · rcases Nat.lt_trichotomy y.toNat z.toNat with hyz | hyz | hyz
      · simp [Nat.lt_trans hxy hyz]
      · simp [hyz ▸ hxy]
      · simp [Nat.lt_asymm hyz, hyz] at h2
    · rcases Nat.lt_trichotomy y.toNat z.toNat with hyz | hyz | hyz
      · simp [hxy ▸ hyz]
      · have hxz : x.toNat = z.toNat := hxy.trans hyz
        simp only [hxy, hyz, hxz, lt_self_iff_false, if_false] at h1 h2 ⊢
        exact lexLe_trans h1 h2
      · simp [Nat.lt_asymm hyz, hyz] at h2
    · simp [Nat.lt_asymm hxy, hxy] at h1

theorem leB_total (a b : Value) : a.leB b = true ∨ b.leB a = true := by
  cases a <;> cases b <;> simp [Value.leB, strLe]
  · exact lexLe_total _ _
  · exact le_total _ _

theorem leB_trans {a b c : Value} (h1 : a.leB b = true) (h2 : b.leB c = true) :
    a.leB c = true := by
  cases a <;> cases b <;> cases c <;> simp_all [Value.leB, strLe]
  · exact lexLe_trans h1 h2
  · exact h1.trans h2

instance : IsTotal (Value × List ℚ) sortRel :=
  ⟨fun a b => by
    rcases lt_trichotomy (primarySum a) (primarySum b) with h | h | h
    · exact Or.inr (Or.inl h)
    · rcases leB_total b.1 a.1 with hk | hk
      · exact Or.inl (Or.inr ⟨h, hk⟩)
      · exact Or.inr (Or.inr ⟨h.symm, hk⟩)
    · exact Or.inl (Or.inl h)⟩

instance : IsTrans (Value × List ℚ) sortRel :=
  ⟨fun a b c hab hbc => by
    rcases hab with h1 | ⟨h1, k1⟩ <;> rcases hbc with h2 | ⟨h2, k2⟩
    · exact Or.inl (h2.trans h1)
    · exact Or.inl (h2 ▸ h1)
    · exact Or.inl (lt_of_lt_of_le h2 (le_of_eq h1.symm))
    · exact Or.inr ⟨h1.trans h2, leB_trans k2 k1⟩⟩

/-- A missing cell never passes a membership filter with an empty allowed
set — nor with any other: `isin([])` is false everywhere. -/
theorem isinCell_nil (c : Cell) : isinCell [] c = false := by
  cases c <;> rfl

/-! Concrete datasets reused by witnesses and counterexamples below. -/

/-- One row with a prison-indicator value. -/
def exRowPrison : Row := [("PRISONIND", some (Value.str "N"))]

/-- A dataset carrying a PRISONIND column. -/
def exDPrison : Dataset := ⟨["PRISONIND"], [exRowPrison]⟩

/-- A dataset with two equal-value commissioners, first appearance A then B. -/
def exDTie : Dataset :=
  ⟨["COMMISSIONERNAME", "TOTALFINVALUE"],
   [[("COMMISSIONERNAME", some (Value.str "A")),
     ("TOTALFINVALUE", some (Value.num 10))],
    [("COMMISSIONERNAME", some (Value.str "B")),
     ("TOTALFINVALUE", some (Value.num 10))]]⟩

/-- A dataset whose single row has a null group key and value 100. -/
def exDNullKey : Dataset :=
  ⟨["COMMISSIONERNAME", "TOTALFINVALUE"],
   [[("COMMISSIONERNAME", none), ("TOTALFINVALUE", some (Value.num 100))]]⟩

/-- The grouping scenario of the spec: A:100, B:300, A:50. -/
def specD : Dataset :=
  ⟨["COMMISSIONERNAME", "TOTALFINVALUE"],
   [[("COMMISSIONERNAME", some (Value.str "A")),
     ("TOTALFINVALUE", some (Value.num 100))],
    [("COMMISSIONERNAME", some (Value.str "B")),
     ("TOTALFINVALUE", some (Value.num 300))],
    [("COMMISSIONERNAME", some (Value.str "A")),
     ("TOTALFINVALUE", some (Value.num 50))]]⟩

/-- The range scenario of the spec: values 50, 100, 300, 301. -/
def exDRange : Dataset :=
  ⟨["TOTALFINVALUE"],
   [[("TOTALFINVALUE", some (Value.num 50))],
    [("TOTALFINVALUE", some (Value.num 100))],
    [("TOTALFINVALUE", some (Value.num 300))],
    [("TOTALFINVALUE", some (Value.num 301))]]⟩

/-- The coercion scenario of the spec: "100", "N/A", 50. -/
def exDCoerce : Dataset :=
  ⟨["TOTALFINVALUE"],
   [[("TOTALFINVALUE", some (Value.str "100"))],
    [("TOTALFINVALUE", some (Value.str "N/A"))],
    [("TOTALFINVALUE", some (Value.num 50))]]⟩

/-- A dataset whose total-value minimum 100.7 is not a whole number. -/
def exDFrac : Dataset :=
  ⟨["TOTALFINVALUE"],
   [[("TOTALFINVALUE", some (Value.num (1007 / 10)))],
    [("TOTALFINVALUE", some (Value.num 300))]]⟩

/-! The claims. -/

/-- C1 (counterexample): the claim that an empty allowed set always behaves
as "no restriction" is false for the prison-indicator predicate. On a
dataset whose PRISONIND column is present, the empty selection (`some []`,
which is not Python `None`) runs `isin([])` and removes every row, while
omitting the predicate keeps the row. -/
theorem c1_counterexample :
    applyFilters exDPrison ⟨[], some [], none⟩ ≠
      applyFilters exDPrison ⟨[], none, none⟩ := by decide

/-- C1 (amended): an empty commissioner allowed set is a no-op — filtering
with no selections at all returns the dataset unchanged — but an empty
prison-indicator allowed set with the PRISONIND column present filters out
every row; only an absent prison selection (`None`, used when the column is
missing) behaves as omission. -/
theorem c1_amended (d : Dataset) :
    applyFilters d ⟨[], none, none⟩ = d ∧
      (d.cols.contains "PRISONIND" = true →
        (applyFilters d ⟨[], some [], none⟩).rows = []) := by
  constructor
  · rfl
  · intro h
    have hrw : applyFilters d ⟨[], some [], none⟩ =
        if d.cols.contains "PRISONIND" then
          ⟨d.cols, d.rows.filter fun r => isinCell [] (Row.get r "PRISONIND")⟩
        else d := rfl
    rw [hrw, if_pos h]
    exact List.filter_eq_nil_iff.mpr fun a _ => by simp [isinCell_nil]

/-- C1 (witness for the amended claim): on the concrete prison dataset the
empty prison selection empties the row list. -/
theorem c1_amended_witness :
    (applyFilters exDPrison ⟨[], some [], none⟩).rows = [] :=
  (c1_amended exDPrison).2 (by decide)

/-- C2 (counterexample): on a filtered dataset whose rows appear as
commissioner A then B with equal sums 10, the tie rule of the claim
(first-appearance order, so A before B) predicts `[A, B]`; the code returns
`[B, A]`, because `groupby(sort=True)` emits keys ascending and the
descending `sort_values` reverses an ascending argsort, leaving equal-sum
groups in descending key order. -/
theorem c2_counterexample :
    groupAggregate exDTie "COMMISSIONERNAME" ["TOTALFINVALUE"] =
        [(Value.str "B", [10]), (Value.str "A", [10])] ∧
      groupAggregate exDTie "COMMISSIONERNAME" ["TOTALFINVALUE"] ≠
        [(Value.str "A", [10]), (Value.str "B", [10])] := by
  constructor <;> decide

/-- C2 (amended): groupAggregate rows are sorted descending by the first
value column summed value, with ties broken by descending group-key order
— not by first appearance in the filtered dataset. -/
theorem c2_amended (d : Dataset) (g : String) (vs : List String) :
    List.Sorted sortRel (groupAggregate d g vs) :=
  List.sorted_insertionSort sortRel (aggList d g vs)

/-- C5: year-month normalization zero-pads to six characters, appends "01"
and parses as YYYYMMDD: the encoded value 202506 yields 2025-06-01, the
invalid encoded value 12 yields a null date, and normalization keeps every
row (it is a per-cell map, so the derived column has one entry per row). -/
theorem c5_yearmonth :
    ymOfNat 202506 = some ⟨2025, 6, 1⟩ ∧ ymOfNat 12 = none ∧
      ∀ ym : List ℕ, (ym.map ymOfNat).length = ym.length :=
  ⟨by decide, by decide, fun ym => List.length_map ym ymOfNat⟩

/-- C8: topN is groupAggregate on the single value column truncated to its
first n rows; when at most n groups exist it returns all of them; and the
Top-20-providers frame of the script is exactly the n = 20 instance. -/
theorem c8_topN (d : Dataset) (g v : String) (n : ℕ) :
    topN d g v n = (groupAggregate d g [v]).take n ∧
      ((groupAggregate d g [v]).length ≤ n → topN d g v n = groupAggregate d g [v]) ∧
      df_prov d = (groupAggregate d "PROVIDERNAME" ["TOTALFINVALUE"]).take 20 :=
  ⟨rfl, fun h => List.take_of_length_le h, rfl⟩

/-- C8 (witness): on the spec scenario dataset, 2 groups exist, so topN with
n = 5 returns the full grouped result. -/
theorem c8_topN_witness :
    topN specD "COMMISSIONERNAME" "TOTALFINVALUE" 5 =
      groupAggregate specD "COMMISSIONERNAME" ["TOTALFINVALUE"] :=
  (c8_topN specD "COMMISSIONERNAME" "TOTALFINVALUE" 5).2.1 (by decide)

/-- C3 (counterexample): a filtered dataset with one row whose group key is
null yields an empty grouped result — pandas `groupby` drops the null-key
rows instead of giving them their own group. -/
theorem c3_counterexample :
    exDNullKey.rows ≠ [] ∧
      groupAggregate exDNullKey "COMMISSIONERNAME" ["TOTALFINVALUE"] = [] := by
  constructor <;> decide

/-- C3 (amended): rows whose group-column value is null/missing are dropped
by groupAggregate: the key of every result row is the non-null group value of
some input row, and conversely every non-null group value of an input row
appears as a result key — there is never a null-sentinel group. -/
theorem c3_amended (d : Dataset) (g : String) (vs : List String) :
    (∀ p ∈ groupAggregate d g vs, ∃ r ∈ d.rows, Row.get r g = some p.1) ∧
      ∀ r ∈ d.rows, ∀ k, Row.get r g = some k →
        ∃ ss, (k, ss) ∈ groupAggregate d g vs := by
  constructor
  · intro p hp
    have h1 : p ∈ aggList d g vs :=
      (List.perm_insertionSort sortRel (aggList d g vs)).mem_iff.mp hp
    obtain ⟨k, hk, rfl⟩ := List.mem_map.mp h1
    have h2 : k ∈ keysOf d g :=
      (List.perm_insertionSort keyAsc (keysOf d g)).mem_iff.mp hk
    obtain ⟨r, hr, hget⟩ := List.mem_filterMap.mp (List.mem_dedup.mp h2)
    exact ⟨r, hr, hget⟩
  · intro r hr k hk
    refine ⟨vs.map fun v => groupSum d g k v, ?_⟩
    have h1 : k ∈ keysOf d g :=
      List.mem_dedup.mpr (List.mem_filterMap.mpr ⟨r, hr, hk⟩)
    have h2 : k ∈ sortedKeys d g :=
      (List.perm_insertionSort keyAsc (keysOf d g)).mem_iff.mpr h1
    exact (List.perm_insertionSort sortRel (aggList d g vs)).mem_iff.mpr
      (List.mem_map.mpr ⟨k, h2, rfl⟩)

/-- C3 (witness for the amended claim): the key B of the grouped output of
the spec scenario is indeed the group value of one of its rows. -/
theorem c3_amended_witness :
    ∃ r ∈ specD.rows, Row.get r "COMMISSIONERNAME" = some (Value.str "B") :=
  (c3_amended specD "COMMISSIONERNAME" ["TOTALFINVALUE"]).1
    (Value.str "B", [300]) (by decide)

/-- C6: with the total-value column present, the range filter keeps exactly
the rows whose value v satisfies lo ≤ v ≤ hi (inclusive at both ends); a
row whose cell is null or non-numeric is excluded. -/
theorem c6_range_filter (d : Dataset) (lo hi : ℚ)
    (hcol : d.cols.contains "TOTALFINVALUE" = true) (r : Row) :
    r ∈ (applyFilters d ⟨[], none, some (lo, hi)⟩).rows ↔
      r ∈ d.rows ∧ ∃ v : ℚ, Row.get r "TOTALFINVALUE" = some (Value.num v) ∧
        lo ≤ v ∧ v ≤ hi := by
  have hrw : applyFilters d ⟨[], none, some (lo, hi)⟩ =
      if d.cols.contains "TOTALFINVALUE" then
        ⟨d.cols, d.rows.filter fun x => rangePred lo hi (Row.get x "TOTALFINVALUE")⟩
      else d := rfl
  rw [hrw, if_pos hcol]
  show r ∈ d.rows.filter _ ↔ _
  rw [List.mem_filter]
  constructor
  · rintro ⟨hr, hp⟩
    refine ⟨hr, ?_⟩
    unfold rangePred at hp
    cases hv : Row.get r "TOTALFINVALUE" with
    | none => rw [hv] at hp; simp at hp
    | some w =>
      cases w with
      | str s => rw [hv] at hp; simp at hp
      | num v =>
        rw [hv] at hp
        simp only [Bool.and_eq_true, decide_eq_true_eq] at hp
        exact ⟨v, rfl, hp.1, hp.2⟩
  · rintro ⟨hr, v, hv, h1, h2⟩
    refine ⟨hr, ?_⟩
    unfold rangePred
    rw [hv]
    simp [h1, h2]

/-- C6 (witness): the spec scenario — bounds [100, 300] over values
50, 100, 300, 301 — keeps exactly the 100 and 300 rows, and the kept
100-row satisfies the membership characterization. -/
theorem c6_range_filter_witness :
    (applyFilters exDRange ⟨[], none, some (100, 300)⟩).rows =
        [[("TOTALFINVALUE", some (Value.num 100))],
         [("TOTALFINVALUE", some (Value.num 300))]] ∧
      [("TOTALFINVALUE", some (Value.num (100 : ℚ)))] ∈
        (applyFilters exDRange ⟨[], none, some (100, 300)⟩).rows :=
  ⟨by decide,
   (c6_range_filter exDRange 100 300 (by decide) _).mpr
     ⟨by decide, 100, by decide, by decide, by decide⟩⟩

/-- The commissioner stage as a single row predicate. -/
def commPred (sel : List Value) (r : Row) : Bool :=
  if sel.isEmpty then true
  else isinCell sel (Row.get r "COMMISSIONERNAME")

/-- The prison stage as a single row predicate, given the column list. -/
def prisonPred (cols : List String) (sel : Option (List Value)) (r : Row) : Bool :=
  match sel with
  | none => true
  | some ps =>
    if cols.contains "PRISONIND" then isinCell ps (Row.get r "PRISONIND") else true

/-- The range stage as a single row predicate, given the column list. -/
def rangeStagePred (cols : List String) (vr : Option (ℚ × ℚ)) (r : Row) : Bool :=
  match vr with
  | none => true
  | some (lo, hi) =>
    if cols.contains "TOTALFINVALUE" then
      rangePred lo hi (Row.get r "TOTALFINVALUE")
    else true

theorem filterComm_eq (sel : List Value) (d : Dataset) :
    filterComm sel d = ⟨d.cols, d.rows.filter (commPred sel)⟩ := by
  show (if sel.isEmpty then d else _) = _
  by_cases h : sel.isEmpty
  · rw [if_pos h]
    have : commPred sel = fun _ => true := by
      funext r; unfold commPred; rw [if_pos h]
    rw [this, List.filter_true]
  · rw [if_neg h]
    refine congrArg (Dataset.mk d.cols) (List.filter_congr fun r _ => ?_)
    unfold commPred
    rw [if_neg h]

theorem filterPrison_eq (sel : Option (List Value)) (d : Dataset) :
    filterPrison sel d = ⟨d.cols, d.rows.filter (prisonPred d.cols sel)⟩ := by
  rcases sel with _ | ps
  · show d = ⟨d.cols, d.rows.filter fun _ => true⟩
    rw [List.filter_true]
  · show (if d.cols.contains "PRISONIND" then _ else d) = _
    by_cases h : d.cols.contains "PRISONIND" = true
    · rw [if_pos h]
      refine congrArg (Dataset.mk d.cols) (List.filter_congr fun r _ => ?_)
      show isinCell ps (Row.get r "PRISONIND") =
        if d.cols.contains "PRISONIND" then isinCell ps (Row.get r "PRISONIND") else true
      rw [if_pos h]
    · rw [if_neg h]
      have : prisonPred d.cols (some ps) = fun _ => true := by
        funext r
        show (if d.cols.contains "PRISONIND" then _ else true) = true
        rw [if_neg h]
      rw [this, List.filter_true]

theorem filterRange_eq (vr : Option (ℚ × ℚ)) (d : Dataset) :
    filterRange vr d = ⟨d.cols, d.rows.filter (rangeStagePred d.cols vr)⟩ := by
  rcases vr with _ | ⟨lo, hi⟩
  · show d = ⟨d.cols, d.rows.filter fun _ => true⟩
    rw [List.filter_true]
  · show (if d.cols.contains "TOTALFINVALUE" then _ else d) = _
    by_cases h : d.cols.contains "TOTALFINVALUE" = true
    · rw [if_pos h]
      refine congrArg (Dataset.mk d.cols) (List.filter_congr fun r _ => ?_)
      show rangePred lo hi (Row.get r "TOTALFINVALUE") =
        if d.cols.contains "TOTALFINVALUE" then
          rangePred lo hi (Row.get r "TOTALFINVALUE") else true
      rw [if_pos h]
    · rw [if_neg h]
      have : rangeStagePred d.cols (some (lo, hi)) = fun _ => true := by
        funext r
        show (if d.cols.contains "TOTALFINVALUE" then _ else true) = true
        rw [if_neg h]
      rw [this, List.filter_true]

/-- The whole filter block collapses to one filter pass with the conjunction
of the three stage predicates. -/
theorem applyFilters_eq_filter (d : Dataset) (s : Selections) :
    applyFilters d s =
      ⟨d.cols, d.rows.filter fun r =>
        commPred s.selected_comm r && prisonPred d.cols s.selected_prison r &&
          rangeStagePred d.cols s.value_range r⟩ := by
  unfold applyFilters
  rw [filterComm_eq]
  rw [filterPrison_eq]
  dsimp only
  rw [filterRange_eq]
  dsimp only
  rw [List.filter_filter, List.filter_filter]
  exact congrArg (Dataset.mk d.cols) (List.filter_congr fun r _ => by
    cases commPred s.selected_comm r <;>
      cases prisonPred d.cols s.selected_prison r <;>
      cases rangeStagePred d.cols s.value_range r <;> rfl)

/-- C7: applying the same filter selections twice yields the same filtered
dataset as applying them once. -/
theorem c7_idempotent (d : Dataset) (s : Selections) :
    applyFilters (applyFilters d s) s = applyFilters d s := by
  rw [applyFilters_eq_filter d s]
  rw [applyFilters_eq_filter]
  dsimp only
  rw [List.filter_filter]
  exact congrArg (Dataset.mk d.cols) (List.filter_congr fun r _ => Bool.and_self _)

/-- Summing an indicator over a duplicate-free list that contains the marked
element yields the marked value. -/
theorem sum_map_ite_eq (q : ℚ) :
    ∀ K : List Value, K.Nodup → ∀ k0 ∈ K,
      (K.map fun k => if k = k0 then q else 0).sum = q
  | [], _, k0, hk => absurd hk (List.not_mem_nil k0)
  | k :: K, hnd, k0, hk => by
    rcases List.mem_cons.mp hk with h | h
    · subst h
      have hz : (K.map fun x => if x = k0 then q else 0).sum = 0 := by
        refine List.sum_eq_zero fun x hx => ?_
        obtain ⟨y, hy, rfl⟩ := List.mem_map.mp hx
        have hne : y ≠ k0 := fun he => (List.nodup_cons.mp hnd).1 (he ▸ hy)
        rw [if_neg hne]
      rw [List.map_cons, List.sum_cons, if_pos rfl, hz, add_zero]
    · have hne : k ≠ k0 := fun he => (List.nodup_cons.mp hnd).1 (he ▸ h)
      rw [List.map_cons, List.sum_cons, if_neg hne, zero_add]
      exact sum_map_ite_eq q K (List.nodup_cons.mp hnd).2 k0 h

/-- Partition identity: when the group key of every row is non-null and listed in
a duplicate-free key list, the per-key group sums add up to the plain column
sum over all rows. -/
theorem sum_groupSum (g v : String) (K : List Value) (hK : K.Nodup) :
    ∀ rows : List Row,
      (∀ r ∈ rows, ∃ k, Row.get r g = some k ∧ k ∈ K) →
      (K.map fun k =>
        ((rows.filter fun x => Row.get x g == some k).filterMap
          fun x => numCell (Row.get x v)).sum).sum =
      (rows.filterMap fun x => numCell (Row.get x v)).sum
  | [], _ => by
    simp only [List.filter_nil, List.filterMap_nil, List.sum_nil]
    exact List.sum_eq_zero fun x hx => by
      obtain ⟨y, _, rfl⟩ := List.mem_map.mp hx
      rfl
  | r :: rows, hcov => by
    obtain ⟨k0, hk0, hk0K⟩ := hcov r (List.mem_cons_self r rows)
    have ih := sum_groupSum g v K hK rows fun x hx =>
      hcov x (List.mem_cons_of_mem r hx)
    have hfil : ∀ k : Value,
        ((r :: rows).filter fun x => Row.get x g == some k) =
          if k = k0 then r :: (rows.filter fun x => Row.get x g == some k)
          else rows.filter fun x => Row.get x g == some k := by
      intro k
      rw [List.filter_cons]
      by_cases h : k = k0
      · subst h
        rw [if_pos rfl, if_pos (by rw [hk0]; exact beq_self_eq_true (some k))]
      · rw [if_neg h, if_neg ?_]
        rw [hk0, beq_eq_false_iff_ne.mpr]
        · exact Bool.false_ne_true
        · exact fun he => h (Option.some.inj he).symm
    cases hnum : numCell (Row.get r v) with
    | none =>
      have hterm : ∀ k ∈ K,
          (((r :: rows).filter fun x => Row.get x g == some k).filterMap
            fun x => numCell (Row.get x v)).sum =
          ((rows.filter fun x => Row.get x g == some k).filterMap
            fun x => numCell (Row.get x v)).sum := by
        intro k _
        rw [hfil k]
        by_cases h : k = k0
        · rw [if_pos h, List.filterMap_cons, hnum]
        · rw [if_neg h]
      rw [List.map_congr_left hterm, ih, List.filterMap_cons, hnum]
    | some q =>
      have hterm : ∀ k ∈ K,
          (((r :: rows).filter fun x => Row.get x g == some k).filterMap
            fun x => numCell (Row.get x v)).sum =
          (if k = k0 then q else 0) +
            ((rows.filter fun x => Row.get x g == some k).filterMap
              fun x => numCell (Row.get x v)).sum := by
        intro k _
        rw [hfil k]
        by_cases h : k = k0
        · rw [if_pos h, if_pos h, List.filterMap_cons, hnum, List.sum_cons]
        · rw [if_neg h, if_neg h, zero_add]
      rw [List.map_congr_left hterm, List.sum_map_add,
        sum_map_ite_eq q K hK k0 hk0K, List.filterMap_cons, hnum, List.sum_cons, ih]

/-- C4 (counterexample): with a null group key carrying value 100, the
groupAggregate sums add to 0 while the summarize total is 100 — the claimed
equality fails because groupby drops null-key rows that summarize counts. -/
theorem c4_counterexample :
    ((groupAggregate exDNullKey "COMMISSIONERNAME" ["TOTALFINVALUE"]).map
        primarySum).sum ≠ sumCol exDNullKey "TOTALFINVALUE" := by decide

/-- C4 (amended): when every row of the filtered dataset has a non-null
group key, the sum over all groupAggregate rows of the summed value equals
the summarize total of that value column over the whole filtered dataset. -/
theorem c4_amended (d : Dataset) (g v : String)
    (h : ∀ r ∈ d.rows, (Row.get r g).isSome = true) :
    ((groupAggregate d g [v]).map primarySum).sum = sumCol d v := by
  have h1 : ((groupAggregate d g [v]).map primarySum).sum =
      ((aggList d g [v]).map primarySum).sum :=
    ((List.perm_insertionSort sortRel (aggList d g [v])).map primarySum).sum_eq
  have h2 : (aggList d g [v]).map primarySum =
      (sortedKeys d g).map fun k => groupSum d g k v := by
    unfold aggList
    rw [List.map_map]
    rfl
  have h3 : ((sortedKeys d g).map fun k => groupSum d g k v).sum =
      ((keysOf d g).map fun k => groupSum d g k v).sum :=
    ((List.perm_insertionSort keyAsc (keysOf d g)).map
      fun k => groupSum d g k v).sum_eq
  have hcov : ∀ r ∈ d.rows, ∃ k, Row.get r g = some k ∧ k ∈ keysOf d g := by
    intro r hr
    have hh := h r hr
    cases hk : Row.get r g with
    | none =>
      rw [hk] at hh
      exact absurd hh (by simp)
    | some k =>
      exact ⟨k, rfl, List.mem_dedup.mpr (List.mem_filterMap.mpr ⟨r, hr, hk⟩)⟩
  have h4 := sum_groupSum g v (keysOf d g) (List.nodup_dedup _) d.rows hcov
  rw [h1, h2, h3]
  exact h4

/-- C4 (witness for the amended claim): on the spec scenario dataset, whose
group keys are all non-null, group sums 300 and 150 add to the summarize
total 450. -/
theorem c4_amended_witness :
    ((groupAggregate specD "COMMISSIONERNAME" ["TOTALFINVALUE"]).map
        primarySum).sum = sumCol specD "TOTALFINVALUE" :=
  c4_amended specD "COMMISSIONERNAME" "TOTALFINVALUE" (by decide)

/-- Coercing one column changes exactly the cell of that column in each row,
through `pd.to_numeric` on the cell. -/
theorem get_coerceRow (c : String) :
    ∀ r : Row, Row.get (coerceRow c r) c = to_numeric (Row.get r c)
  | [] => rfl
  | (n, cell) :: t => by
    unfold coerceRow
    rw [List.map_cons]
    dsimp only
    by_cases h : n = c
    · subst h
      rw [if_pos rfl]
      simp [Row.get, List.lookup]
    · have hbeq : (c == n) = false := beq_eq_false_iff_ne.mpr fun he => h he.symm
      rw [if_neg h]
      simp only [Row.get, List.lookup, hbeq]
      exact get_coerceRow c t

/-- C9: numeric coercion of a present column never errors, keeps every row,
converts each cell independently (a non-convertible value such as "N/A"
becomes null), and the summarize sum of the coerced column is the sum of
only the values that converted. -/
theorem c9_coercion (d : Dataset) (c : String)
    (hc : d.cols.contains c = true) :
    to_numeric (some (Value.str "N/A")) = none ∧
      (coerceCol d c).rows.length = d.rows.length ∧
      (∀ r ∈ d.rows, Row.get (coerceRow c r) c = to_numeric (Row.get r c)) ∧
      sumCol (coerceCol d c) c =
        (d.rows.filterMap fun r => numCell (to_numeric (Row.get r c))).sum := by
  have hrows : (coerceCol d c).rows = d.rows.map (coerceRow c) := by
    unfold coerceCol
    rw [if_pos hc]
  refine ⟨by decide, ?_, fun r _ => get_coerceRow c r, ?_⟩
  · rw [hrows, List.length_map]
  · unfold sumCol
    rw [hrows, List.filterMap_map]
    have : ((fun r => numCell (Row.get r c)) ∘ coerceRow c) =
        fun r => numCell (to_numeric (Row.get r c)) := by
      funext r
      show numCell (Row.get (coerceRow c r) c) = _
      rw [get_coerceRow]
    rw [this]

/-- C9 (witness): on the coercion scenario — cells "100", "N/A", 50 — the
coerced column sums to 150: the "N/A" cell became null and was excluded. -/
theorem c9_coercion_witness :
    sumCol (coerceCol exDCoerce "TOTALFINVALUE") "TOTALFINVALUE" = 150 :=
  ((c9_coercion exDCoerce "TOTALFINVALUE" (by decide)).2.2.2).trans (by decide)

/-- C10: the default slider range rounds the column minimum and maximum to
0 decimal places, so on a dataset whose minimum 100.7 is not whole the
untouched default range [101, 300] already excludes the 100.7 row — the
default filter is not a no-op. -/
theorem c10_default_range :
    colMin exDFrac "TOTALFINVALUE" = some (1007 / 10) ∧
      defaultRange exDFrac = some (101, 300) ∧
      applyFilters exDFrac ⟨[], none, defaultRange exDFrac⟩ ≠ exDFrac := by
  refine ⟨by decide, by decide, by decide⟩

end NHSDental
